import Mathlib

/-!
Verification development for the MORSE supervision services layer
(`morse/services/supervision_services.py`).

The Python module is shallowly embedded below: machine floats are idealised
as real numbers, the Blender scene is a finite forest of named objects (the
host engine guarantees the scene graph is a tree), JSON decoding of the
string arguments is modelled by an `Option`-valued parser, and every service
returns `Except Err` mirroring the `MorseRPC...Error` exceptions of the
source.  The `mathutils` quaternion/matrix conversions consumed by the
module are modelled by the standard formulas implemented by that library
(rotation matrix of a quaternion, trace-based matrix-to-quaternion
algorithm).
-/

namespace Morse

noncomputable section

/-- Real 3-vector: models a `mathutils.Vector` of length 3 (floats idealised
as reals). -/
@[ext]
structure V3 where
  x : ℝ
  y : ℝ
  z : ℝ

/-- The zero vector, as used by the velocity/force/torque resets. -/
def V3.zero : V3 := ⟨0, 0, 0⟩

/-- Componentwise vector addition. -/
def V3.add (a b : V3) : V3 := ⟨a.x + b.x, a.y + b.y, a.z + b.z⟩

/-- Quaternion in the scalar-first storage used by `mathutils.Quaternion`. -/
@[ext]
structure Quat where
  w : ℝ
  x : ℝ
  y : ℝ
  z : ℝ

/-- Componentwise negation of a quaternion; `q` and `Quat.neg q` encode the
same rotation. -/
def Quat.neg (q : Quat) : Quat := ⟨-q.w, -q.x, -q.y, -q.z⟩

/-- 3x3 real matrix (row major), models a `mathutils.Matrix` restricted to
3x3. -/
@[ext]
structure M3 where
  m00 : ℝ
  m01 : ℝ
  m02 : ℝ
  m10 : ℝ
  m11 : ℝ
  m12 : ℝ
  m20 : ℝ
  m21 : ℝ
  m22 : ℝ

/-- The identity rotation. -/
def M3.identity : M3 := ⟨1, 0, 0, 0, 1, 0, 0, 0, 1⟩

/-- Matrix-vector product (`mathutils`: `matrix * vector`). -/
def M3.mulVec (m : M3) (v : V3) : V3 :=
  ⟨m.m00 * v.x + m.m01 * v.y + m.m02 * v.z,
   m.m10 * v.x + m.m11 * v.y + m.m12 * v.z,
   m.m20 * v.x + m.m21 * v.y + m.m22 * v.z⟩

/-- Models `mathutils.Quaternion.to_matrix`: the rotation matrix of a unit
quaternion (standard formula, column-vector convention). -/
def Quat.to_matrix (q : Quat) : M3 where
  m00 := 1 - 2 * (q.y ^ 2 + q.z ^ 2)
  m01 := 2 * (q.x * q.y - q.w * q.z)
  m02 := 2 * (q.x * q.z + q.w * q.y)
  m10 := 2 * (q.x * q.y + q.w * q.z)
  m11 := 1 - 2 * (q.x ^ 2 + q.z ^ 2)
  m12 := 2 * (q.y * q.z - q.w * q.x)
  m20 := 2 * (q.x * q.z - q.w * q.y)
  m21 := 2 * (q.y * q.z + q.w * q.x)
  m22 := 1 - 2 * (q.x ^ 2 + q.y ^ 2)

open Classical in
/-- Models `mathutils.Matrix.to_quaternion` on a rotation matrix: the
standard trace-based algorithm (Shepperd), branching on the trace and on the
largest diagonal entry. -/
def M3.to_quaternion (m : M3) : Quat :=
  if 0 < m.m00 + m.m11 + m.m22 then
    let S := Real.sqrt (m.m00 + m.m11 + m.m22 + 1) * 2
    ⟨S / 4, (m.m21 - m.m12) / S, (m.m02 - m.m20) / S, (m.m10 - m.m01) / S⟩
  else if m.m11 < m.m00 ∧ m.m22 < m.m00 then
    let S := Real.sqrt (1 + m.m00 - m.m11 - m.m22) * 2
    ⟨(m.m21 - m.m12) / S, S / 4, (m.m01 + m.m10) / S, (m.m02 + m.m20) / S⟩
  else if m.m22 < m.m11 then
    let S := Real.sqrt (1 + m.m11 - m.m00 - m.m22) * 2
    ⟨(m.m02 - m.m20) / S, (m.m01 + m.m10) / S, S / 4, (m.m12 + m.m21) / S⟩
  else
    let S := Real.sqrt (1 + m.m22 - m.m00 - m.m11) * 2
    ⟨(m.m10 - m.m01) / S, (m.m02 + m.m20) / S, (m.m12 + m.m21) / S, S / 4⟩

/-- Per-object simulation state: the parts of a Blender `KX_GameObject`
(plus its underlying mesh data) read or written by the supervision services.
Both the world-space pose and the parent-relative pose are kept so that
statements can distinguish the two. -/
structure BObjState where
  worldPos : V3
  worldOri : M3
  localPos : V3
  localOri : M3
  linVel : V3
  angVel : V3
  force : V3
  torque : V3
  suspended : Bool
  visible : Bool
  localBBox : List V3
  gameProps : List (String × String)

/-- A scene object together with its children: the host engine guarantees
the scene graph is a tree, so the scene is embedded as a forest. -/
inductive BTree where
  | node (name : String) (st : BObjState) (children : List BTree)

/-- The whole scene: the list of parentless (top-level) objects. -/
abbrev Scene := List BTree

/-- Name of the root object of a tree. -/
def BTree.rootName : BTree → String
  | .node n _ _ => n

/-- State of the root object of a tree. -/
def BTree.rootState : BTree → BObjState
  | .node _ st _ => st

mutual

/-- Flat list of all (name, state) pairs in a tree (`scene.objects` is a
flat list in the engine). -/
def BTree.flatten : BTree → List (String × BObjState)
  | .node n st cs => (n, st) :: flattenForest cs

/-- Flat list of all (name, state) pairs in a forest. -/
def flattenForest : List BTree → List (String × BObjState)
  | [] => []
  | t :: ts => t.flatten ++ flattenForest ts

end

mutual

/-- Look an object up by name in a tree (depth-first). -/
def findObjT (t : BTree) (n : String) : Option BObjState :=
  match t with
  | .node nm st cs => if nm = n then some st else findObjF cs n

/-- Look an object up by name in a forest; models `scene.objects[name]`. -/
def findObjF (l : List BTree) (n : String) : Option BObjState :=
  match l with
  | [] => none
  | t :: ts =>
    match findObjT t n with
    | some st => some st
    | none => findObjF ts n

end

mutual

/-- Apply `f` to the state of every object called `n` in a tree (names are
unique in a simulation, so this is the single object `n`). -/
def updateObjT (t : BTree) (n : String) (f : BObjState → BObjState) : BTree :=
  match t with
  | .node nm st cs =>
    if nm = n then .node nm (f st) (updateObjF cs n f)
    else .node nm st (updateObjF cs n f)

/-- Apply `f` to the state of every object called `n` in a forest. -/
def updateObjF (l : List BTree) (n : String) (f : BObjState → BObjState) : List BTree :=
  match l with
  | [] => []
  | t :: ts => updateObjT t n f :: updateObjF ts n f

end

/-- Typed faults raised by the services: `MorseRPCInvokationError` and
`MorseRPCTypeError` from `morse.core.exceptions`. -/
inductive Err where
  | invokation (msg : String)
  | typeErr (msg : String)

/-- A decoded JSON argument for the pose/point services: either an array of
numbers or an input on which `json.loads` (or the `mathutils` constructor)
raises. -/
inductive JVal where
  | nums (l : List ℝ)
  | malformed

/-- Models `mathutils.Vector(json.loads(arg))`: `json.loads` raises on
malformed input, and the `mathutils.Vector` constructor accepts a numeric
array of 2 to 4 elements (the vector sizes it supports), raising on any
other shape.  The constructed vector keeps its dimension: a 2d or 4d
vector is built successfully and only fails later, at the point where a
3d vector is required. -/
def parseVector : JVal → Option (List ℝ)
  | .nums [a, b] => some [a, b]
  | .nums [a, b, c] => some [a, b, c]
  | .nums [a, b, c, d] => some [a, b, c, d]
  | _ => none

/-- Models `mathutils.Quaternion(json.loads(arg))`: a 4-number array in
scalar-first `[w, x, y, z]` order; anything else raises. -/
def parseQuaternion : JVal → Option Quat
  | .nums [w, x, y, z] => some ⟨w, x, y, z⟩
  | _ => none

/-- The JSON encoding of a 3-vector, `[x, y, z]`. -/
def encodeV3 (v : V3) : JVal := .nums [v.x, v.y, v.z]

/-- The JSON encoding of a quaternion, scalar-first `[w, x, y, z]`. -/
def encodeQuat (q : Quat) : JVal := .nums [q.w, q.x, q.y, q.z]

/-- The fault raised by `get_obj_by_name` for an unknown object name. -/
def notFoundErr (name : String) : Err :=
  .invokation ("Object " ++ name ++ " does not appear in the scene.")

/-- Embedding of `get_obj_by_name`: return the scene object named `name`,
or raise `MorseRPCInvokationError` if the name is not in `scene.objects`. -/
def get_obj_by_name (s : Scene) (name : String) : Except Err BObjState :=
  match findObjF s name with
  | none => .error (notFoundErr name)
  | some o => .ok o

/-- The component registry `persistantstorage().componentDict`, reduced to
the `_active` flag that `activate`/`deactivate` touch. -/
abbrev ComponentDict := List (String × Bool)

/-- Write the `_active` flag of component `n`. -/
def setFlag (d : ComponentDict) (n : String) (b : Bool) : ComponentDict :=
  d.map (fun p => if p.1 = n then (p.1, b) else p)

/-- Embedding of the `activate` service: set `_active` of the named
component to `True`; a missing key raises `MorseRPCTypeError`. -/
def activate (d : ComponentDict) (component_name : String) :
    Except Err Unit × ComponentDict :=
  match d.lookup component_name with
  | some _ => (.ok (), setFlag d component_name true)
  | none =>
    (.error (.typeErr ("Component " ++ component_name ++ " not found. Cant activate")), d)

/-- Embedding of the `deactivate` service: set `_active` of the named
component to `False`; a missing key raises `MorseRPCTypeError`. -/
def deactivate (d : ComponentDict) (component_name : String) :
    Except Err Unit × ComponentDict :=
  match d.lookup component_name with
  | some _ => (.ok (), setFlag d component_name false)
  | none =>
    (.error (.typeErr ("Component " ++ component_name ++ " not found. Cant deactivate")), d)

/-- The calls `set_object_pose` makes against the physics engine, in order;
used to state sequencing claims. -/
inductive Ev where
  | suspendDynamics (n : String)
  | setLinearVelocity (n : String) (v : V3)
  | setAngularVelocity (n : String) (v : V3)
  | applyForce (n : String) (v : V3)
  | applyTorque (n : String) (v : V3)
  | setWorldPosition (n : String) (p : V3)
  | setWorldOrientation (n : String) (m : M3)
  | restoreDynamics (n : String)

/-- Embedding of `get_object_pose`: `[[x, y, z], [qw, qx, qy, qz]]`, the
orientation being `worldOrientation.to_quaternion()` in scalar-first
order. -/
def get_object_pose (s : Scene) (object_name : String) :
    Except Err (List (List ℝ)) :=
  match get_obj_by_name s object_name with
  | .error e => .error e
  | .ok b =>
    let pos := b.worldPos
    let ori := b.worldOri.to_quaternion
    .ok [[pos.x, pos.y, pos.z], [ori.w, ori.x, ori.y, ori.z]]

/-- Embedding of `set_object_pose`.  Mirrors the statement order of the
source: resolve the handle, decode both JSON arguments, then suspend
dynamics, zero linear velocity, angular velocity, force and torque, write
the world position and the world orientation (quaternion converted to a
matrix), and restore dynamics.  The `worldPosition` setter requires a 3d
vector: when the decoded position has any other dimension the source
raises there, AFTER suspending dynamics and zeroing the velocities, force
and torque, and `restoreDynamics` on the following lines is never reached
— there is no try/finally bracket.  Returns the result, the scene state
after the call, and the trace of physics-engine calls made. -/
def set_object_pose (s : Scene) (object_name : String)
    (position orientation : JVal) :
    Except Err Unit × Scene × List Ev :=
  match get_obj_by_name s object_name with
  | .error e => (.error e, s, [])
  | .ok _ =>
    match parseVector position with
    | none => (.error (.invokation "malformed position"), s, [])
    | some pos =>
      match parseQuaternion orientation with
      | none => (.error (.invokation "malformed orientation"), s, [])
      | some q =>
        let ori := q.to_matrix
        let s1 := updateObjF s object_name (fun o => { o with suspended := true })
        let s2 := updateObjF s1 object_name (fun o => { o with linVel := V3.zero })
        let s3 := updateObjF s2 object_name (fun o => { o with angVel := V3.zero })
        let s4 := updateObjF s3 object_name (fun o => { o with force := V3.zero })
        let s5 := updateObjF s4 object_name (fun o => { o with torque := V3.zero })
        match pos with
        | [px, py, pz] =>
          let p : V3 := ⟨px, py, pz⟩
          let s6 := updateObjF s5 object_name (fun o => { o with worldPos := p })
          let s7 := updateObjF s6 object_name (fun o => { o with worldOri := ori })
          let s8 := updateObjF s7 object_name (fun o => { o with suspended := false })
          (.ok (), s8,
            [.suspendDynamics object_name,
             .setLinearVelocity object_name V3.zero,
             .setAngularVelocity object_name V3.zero,
             .applyForce object_name V3.zero,
             .applyTorque object_name V3.zero,
             .setWorldPosition object_name p,
             .setWorldOrientation object_name ori,
             .restoreDynamics object_name])
        | _ =>
          (.error (.typeErr "worldPosition requires a 3d vector"), s5,
            [.suspendDynamics object_name,
             .setLinearVelocity object_name V3.zero,
             .setAngularVelocity object_name V3.zero,
             .applyForce object_name V3.zero,
             .applyTorque object_name V3.zero])

mutual

/-- `KX_GameObject.setVisible(visible, do_children)` on the object named
`n` inside a tree. -/
def setVisibleT (t : BTree) (n : String) (visible do_children : Bool) : BTree :=
  match t with
  | .node nm st cs =>
    if nm = n then
      .node nm { st with visible := visible }
        (if do_children then setAllVisible cs visible else cs)
    else .node nm st (setVisibleF cs n visible do_children)

/-- `setVisible` over a forest. -/
def setVisibleF (l : List BTree) (n : String) (visible do_children : Bool) : List BTree :=
  match l with
  | [] => []
  | t :: ts => setVisibleT t n visible do_children :: setVisibleF ts n visible do_children

/-- Set visibility of every object of a forest (the `do_children` case). -/
def setAllVisible (l : List BTree) (visible : Bool) : List BTree :=
  match l with
  | [] => []
  | .node nm st cs :: ts =>
    .node nm { st with visible := visible } (setAllVisible cs visible) :: setAllVisible ts visible

end

/-- Embedding of `set_object_visibility`: resolve, then set the visibility
flag (and of all children when `do_children`), returning `visible`. -/
def set_object_visibility (s : Scene) (object_name : String)
    (visible do_children : Bool) : Except Err Bool × Scene :=
  match get_obj_by_name s object_name with
  | .error e => (.error e, s)
  | .ok _ => (.ok visible, setVisibleF s object_name visible do_children)

/-- Embedding of `set_object_dynamics`: resolve, then `restoreDynamics` when
`state` is true and `suspendDynamics` otherwise, returning `state`. -/
def set_object_dynamics (s : Scene) (object_name : String) (state : Bool) :
    Except Err Bool × Scene :=
  match get_obj_by_name s object_name with
  | .error e => (.error e, s)
  | .ok _ =>
    (.ok state, updateObjF s object_name (fun o => { o with suspended := !state }))

/-- Embedding of `get_object_bbox`: the 8 corners of the static local
bounding box of the mesh data of the named object, as coordinate lists.
`blenderapi.objectdata(name).bound_box` is modelled as the `localBBox`
field of the same-named scene object. -/
def get_object_bbox (s : Scene) (object_name : String) :
    Except Err (List (List ℝ)) :=
  match get_obj_by_name s object_name with
  | .error e => .error e
  | .ok b => .ok (b.localBBox.map (fun corner => [corner.x, corner.y, corner.z]))

/-- Embedding of `get_object_global_bbox`: each local corner transformed by
the current world orientation and position,
`vec = world_ori * corner + world_pos`. -/
def get_object_global_bbox (s : Scene) (object_name : String) :
    Except Err (List (List ℝ)) :=
  match get_obj_by_name s object_name with
  | .error e => .error e
  | .ok b =>
    .ok (b.localBBox.map (fun corner =>
      let vec := V3.add (b.worldOri.mulVec corner) b.worldPos
      [vec.x, vec.y, vec.z]))

/-- Embedding of `get_object_type`: the free-form `Type` game property,
empty string when unset. -/
def get_object_type (s : Scene) (object_name : String) : Except Err String :=
  match get_obj_by_name s object_name with
  | .error e => .error e
  | .ok b => .ok ((b.gameProps.lookup "Type").getD "")

/-- Embedding of `transform_to_obj_frame`: resolve, decode the point, and
return `world_ori * point + world_pos` as a coordinate list.  Multiplying
the 3x3 world orientation by a vector of any other dimension raises in
`mathutils`; this query mutates no simulation state on any path. -/
def transform_to_obj_frame (s : Scene) (object_name : String) (point : JVal) :
    Except Err (List ℝ) :=
  match get_obj_by_name s object_name with
  | .error e => .error e
  | .ok b =>
    match parseVector point with
    | none => .error (.invokation "malformed point")
    | some l =>
      match l with
      | [px, py, pz] =>
        let pos := V3.add (b.worldOri.mulVec ⟨px, py, pz⟩) b.worldPos
        .ok [pos.x, pos.y, pos.z]
      | _ => .error (.typeErr "matrix multiplication size mismatch")

/-- A node of the snapshot structure: the 3-element value
`[children_dictionary, position, orientation]` that
`get_structured_children_of` associates to an object name.  The children
dictionary is an ordered association list of the same shape. -/
inductive SNode where
  | mk (children : List (String × SNode)) (position : ℝ × ℝ × ℝ)
      (orientation : ℝ × ℝ × ℝ × ℝ)

/-- The children dictionary of a snapshot node. -/
def SNode.children : SNode → List (String × SNode)
  | .mk c _ _ => c

/-- The position entry of a snapshot node. -/
def SNode.position : SNode → ℝ × ℝ × ℝ
  | .mk _ p _ => p

/-- The orientation entry of a snapshot node. -/
def SNode.orientation : SNode → ℝ × ℝ × ℝ × ℝ
  | .mk _ _ o => o

mutual

/-- Embedding of `get_structured_children_of`: the singleton mapping
`{name: [children, (pos.x, pos.y, pos.z), (ori.x, ori.y, ori.z, ori.w)]}`
where `pos` is `worldPosition`, `ori` is
`worldOrientation.to_quaternion()`, and the children dictionary is filled by
recursing into `blender_object.children` in order. -/
def get_structured_children_of (t : BTree) : String × SNode :=
  match t with
  | .node name st children =>
    let orientation := st.worldOri.to_quaternion
    let position := st.worldPos
    (name,
      .mk (childStructures children)
        (position.x, position.y, position.z)
        (orientation.x, orientation.y, orientation.z, orientation.w))

/-- The children dictionary built by the `for c in children` update loop. -/
def childStructures (l : List BTree) : List (String × SNode) :=
  match l with
  | [] => []
  | c :: cs => get_structured_children_of c :: childStructures cs

end

/-- The fixed infrastructure exclusion set of `get_scene_objects`. -/
def remove_items : List String := ["Scene_Script_Holder", "CameraFP", "__default__cam__"]

/-- The parentless objects that survive the exclusion filter. -/
def top_levelers (scene : Scene) : Scene :=
  scene.filter (fun t => !(remove_items.contains t.rootName))

/-- Embedding of `get_scene_objects`: one `get_structured_children_of`
entry per surviving top-level object, merged in order. -/
def get_scene_objects (scene : Scene) : List (String × SNode) :=
  (top_levelers scene).map get_structured_children_of

mutual

/-- Modelled from the spec: a SceneNode is
`{name, children: mapping name to SceneNode, position, orientation}` where
position and orientation are the WORLD-space pose of the node itself (not a
pose relative to its parent), the orientation being the quaternion of the
world orientation, and the children mapping has the identical recursive
shape. -/
def specSceneNode (t : BTree) : String × SNode :=
  match t with
  | .node name st children =>
    (name,
      .mk (specSceneChildren children)
        (st.worldPos.x, st.worldPos.y, st.worldPos.z)
        ((st.worldOri.to_quaternion).x, (st.worldOri.to_quaternion).y,
         (st.worldOri.to_quaternion).z, (st.worldOri.to_quaternion).w))

/-- Modelled from the spec: the children mapping, one SceneNode per child. -/
def specSceneChildren (l : List BTree) : List (String × SNode) :=
  match l with
  | [] => []
  | c :: cs => specSceneNode c :: specSceneChildren cs

end

mutual

/-- All orientation entries of a snapshot entry, node first, then its
children depth-first. -/
def snapOris (p : String × SNode) : List (ℝ × ℝ × ℝ × ℝ) :=
  match p with
  | (_, .mk children _ ori) => ori :: snapOrisL children

/-- All orientation entries of a children dictionary. -/
def snapOrisL (l : List (String × SNode)) : List (ℝ × ℝ × ℝ × ℝ) :=
  match l with
  | [] => []
  | p :: ps => snapOris p ++ snapOrisL ps

end

mutual

/-- The world orientation quaternions of all objects of a tree, depth-first
in the same order as the snapshot. -/
def treeWorldQuats (t : BTree) : List Quat :=
  match t with
  | .node _ st cs => st.worldOri.to_quaternion :: forestWorldQuats cs

/-- The world orientation quaternions of all objects of a forest. -/
def forestWorldQuats (l : List BTree) : List Quat :=
  match l with
  | [] => []
  | t :: ts => treeWorldQuats t ++ forestWorldQuats ts

end

/-- All orientation entries of a whole snapshot. -/
def sceneSnapOris (snapshot : List (String × SNode)) : List (ℝ × ℝ × ℝ × ℝ) :=
  snapOrisL snapshot

/-- Python `dict` as an ordered association list with unique keys: write a
key in place when present, append it otherwise. -/
def setKey {α : Type} (d : List (String × α)) (k : String) (v : α) :
    List (String × α) :=
  if d.any (fun e => e.1 == k) then d.map (fun e => if e.1 = k then (k, v) else e)
  else d ++ [(k, v)]

/-- Python `d.update(e)`: fold the entries of `e` into `d` in order,
overwriting existing keys. -/
def dictUpdate {α : Type} (d e : List (String × α)) : List (String × α) :=
  e.foldl (fun acc q => setKey acc q.1 q.2) d

/-- Python `d.setdefault(k, []).append(v)`. -/
def appendAt (d : List (String × List String)) (k : String) (v : String) :
    List (String × List String) :=
  if d.any (fun e => e.1 == k) then
    d.map (fun e => if e.1 = k then (e.1, e.2 ++ [v]) else e)
  else d ++ [(k, [v])]

/-- The attached request managers: middleware name mapped to its
`services()` listing (component name mapped to the operation names it
offers over that middleware), in attachment/enumeration order. -/
abbrev RequestManagers := List (String × List (String × List String))

/-- The `services` dictionary built by `details()`:
`services.update(i.services())` over every request manager. -/
def buildServices (rms : RequestManagers) : List (String × List String) :=
  rms.foldl (fun acc p => dictUpdate acc p.2) []

/-- The `services_iface` dictionary built by `details()`:
`services_iface.setdefault(cmpt, []).append(n)` for every component of
every request manager. -/
def buildIfaces (rms : RequestManagers) : List (String × List String) :=
  rms.foldl (fun acc p => p.2.foldl (fun a q => appendAt a q.1 p.1) acc) []

/-- A component as seen by `details()` (the `componentDict` entry carries
the Python type name). -/
structure Component where
  name : String
  typeName : String

/-- A robot as seen by `details()`. -/
structure Robot where
  name : String
  typeName : String
  components : List Component

/-- The slice of `persistantstorage()` that `details()` reads. -/
structure Simu where
  request_managers : RequestManagers
  robotDict : List Robot
  datastreams : List (String × (String × List String))

/-- The per-component report of `details()` (`cmptdetails`); absent keys are
`none`. -/
structure CmptReport where
  type : String
  services : Option (List String)
  service_interfaces : Option (List String)
  stream : Option String
  stream_interfaces : Option (List String)

/-- Embedding of the inner `cmptdetails` of `details()`. -/
def cmptdetails (simu : Simu) (services ifaces : List (String × List String))
    (c : Component) : CmptReport :=
  let base : CmptReport :=
    { type := c.typeName, services := none, service_interfaces := none,
      stream := none, stream_interfaces := none }
  let base :=
    match services.lookup c.name with
    | some ops =>
      { base with services := some ops, service_interfaces := ifaces.lookup c.name }
    | none => base
  match simu.datastreams.lookup c.name with
  | some st => { base with stream := some st.1, stream_interfaces := some st.2 }
  | none => base

/-- The per-robot report of `details()` (`robotdetails`). -/
structure RobotReport where
  name : String
  type : String
  components : List (String × CmptReport)
  services : Option (List String)
  services_interfaces : Option (List String)

/-- Embedding of the inner `robotdetails` of `details()`. -/
def robotdetails (simu : Simu) (services ifaces : List (String × List String))
    (r : Robot) : RobotReport :=
  let base : RobotReport :=
    { name := r.name, type := r.typeName,
      components := r.components.map (fun c => (c.name, cmptdetails simu services ifaces c)),
      services := none, services_interfaces := none }
  match services.lookup r.name with
  | some ops =>
    { base with services := some ops, services_interfaces := ifaces.lookup r.name }
  | none => base

/-- Embedding of the `details()` service: the per-robot reports, built over
the `services` and `services_iface` dictionaries. -/
def details (simu : Simu) : List RobotReport :=
  let services := buildServices simu.request_managers
  let ifaces := buildIfaces simu.request_managers
  simu.robotDict.map (robotdetails simu services ifaces)

/-- The request managers whose `services()` listing contains component
`c`. -/
def exposingFor (rms : RequestManagers) (c : String) : RequestManagers :=
  rms.filter (fun p => p.2.any (fun q => q.1 == c))

/-- The last request manager (in enumeration order) whose `services()`
listing contains component `c`. -/
def lastServing (c : String) : RequestManagers →
    Option (String × List (String × List String))
  | [] => none
  | p :: rest =>
    match lastServing c rest with
    | some q => some q
    | none => if p.2.any (fun q => q.1 == c) then some p else none

/-- A neutral object state for concrete test scenes: at the origin with the
identity orientation, at rest, physics enabled. -/
def demoState : BObjState where
  worldPos := ⟨0, 0, 0⟩
  worldOri := M3.identity
  localPos := ⟨0, 0, 0⟩
  localOri := M3.identity
  linVel := ⟨0, 0, 0⟩
  angVel := ⟨0, 0, 0⟩
  force := ⟨0, 0, 0⟩
  torque := ⟨0, 0, 0⟩
  suspended := false
  visible := true
  localBBox := []
  gameProps := []

/-- A concrete one-object scene. -/
def demoScene : Scene := [.node "obj1" demoState []]

/-- State of `box1` in the bounding-box scenario: world position
`(10, 0, 0)`, identity world orientation, unit-cube local bounding box
(one corner is `(1, 1, 1)`). -/
def boxState : BObjState :=
  { demoState with
    worldPos := ⟨10, 0, 0⟩,
    localBBox := [⟨0, 0, 0⟩, ⟨0, 0, 1⟩, ⟨0, 1, 1⟩, ⟨0, 1, 0⟩,
                  ⟨1, 0, 0⟩, ⟨1, 0, 1⟩, ⟨1, 1, 1⟩, ⟨1, 1, 0⟩] }

/-- A concrete scene holding `box1`. -/
def boxScene : Scene := [.node "box1" boxState []]

/-- A concrete component dictionary. -/
def demoComponents : ComponentDict := [("motion", true), ("camera", false)]

/-- Concrete request managers: two middlewares, both exposing services for
component `motion` and for robot `robby`. -/
def demoManagers : RequestManagers :=
  [("socket", [("robby", ["move"]), ("motion", ["set_speed"])]),
   ("ros", [("robby", ["move", "home"]), ("motion", ["set_speed", "get_status"])])]

/-- Concrete component for the introspection report. -/
def demoMotion : Component := { name := "motion", typeName := "MotionVW" }

/-- Concrete robot for the introspection report. -/
def demoRobot : Robot := { name := "robby", typeName := "ATRV", components := [demoMotion] }

/-- Concrete simulation snapshot for the introspection report. -/
def demoSimu : Simu where
  request_managers := demoManagers
  robotDict := [demoRobot]
  datastreams := []

/-- Square roots of expressions of the form `4 * c ^ 2` evaluate to `2 * c`
for nonnegative `c`. -/
theorem sqrt_four_sq {c : ℝ} (hc : 0 ≤ c) : Real.sqrt (4 * c ^ 2) = 2 * c := by
  rw [show (4 : ℝ) * c ^ 2 = (2 * c) ^ 2 by ring, Real.sqrt_sq (by linarith)]

/-- Converting a unit quaternion to its rotation matrix and back recovers the
quaternion up to sign. -/
theorem to_quaternion_to_matrix (q : Quat)
    (h : q.w ^ 2 + q.x ^ 2 + q.y ^ 2 + q.z ^ 2 = 1) :
    M3.to_quaternion (Quat.to_matrix q) = q ∨
    M3.to_quaternion (Quat.to_matrix q) = Quat.neg q := by
  obtain ⟨w, x, y, z⟩ := q
  simp only [Quat.to_matrix, M3.to_quaternion, Quat.neg]
  split_ifs with h1 h2 h3
  · -- positive trace branch: sign decided by `w`
    rcases lt_trichotomy w 0 with hw | hw | hw
    · right
      have hw' : w ≠ 0 := ne_of_lt hw
      rw [show 1 - 2 * (y ^ 2 + z ^ 2) + (1 - 2 * (x ^ 2 + z ^ 2)) +
            (1 - 2 * (x ^ 2 + y ^ 2)) + 1 = 4 * (-w) ^ 2 by nlinarith,
          sqrt_four_sq (by linarith)]
      have hden : (2 * -w * 2 : ℝ) ≠ 0 := by
        intro hc
        exact hw' (by linarith [hc])
      refine Quat.ext ?_ ?_ ?_ ?_ <;>
        · dsimp only
          first
          | ring1
          | (rw [div_eq_iff hden]; ring1)
    · exfalso; nlinarith
    · left
      have hw' : w ≠ 0 := ne_of_gt hw
      rw [show 1 - 2 * (y ^ 2 + z ^ 2) + (1 - 2 * (x ^ 2 + z ^ 2)) +
            (1 - 2 * (x ^ 2 + y ^ 2)) + 1 = 4 * w ^ 2 by nlinarith,
          sqrt_four_sq (by linarith)]
      have hden : (2 * w * 2 : ℝ) ≠ 0 := by
        intro hc
        exact hw' (by linarith [hc])
      refine Quat.ext ?_ ?_ ?_ ?_ <;>
        · dsimp only
          first
          | ring1
          | (rw [div_eq_iff hden]; ring1)
  · -- `m00` largest diagonal: sign decided by `x`
    have hx' : x ≠ 0 := by
      intro hx0
      obtain ⟨h2a, h2b⟩ := h2
      nlinarith
    rcases lt_or_gt_of_ne hx' with hx | hx
    · right
      rw [show 1 + (1 - 2 * (y ^ 2 + z ^ 2)) - (1 - 2 * (x ^ 2 + z ^ 2)) -
            (1 - 2 * (x ^ 2 + y ^ 2)) = 4 * (-x) ^ 2 by ring,
          sqrt_four_sq (by linarith)]
      have hden : (2 * -x * 2 : ℝ) ≠ 0 := by
        intro hc
        exact hx' (by linarith [hc])
      refine Quat.ext ?_ ?_ ?_ ?_ <;>
        · dsimp only
          first
          | ring1
          | (rw [div_eq_iff hden]; ring1)
    · left
      rw [show 1 + (1 - 2 * (y ^ 2 + z ^ 2)) - (1 - 2 * (x ^ 2 + z ^ 2)) -
            (1 - 2 * (x ^ 2 + y ^ 2)) = 4 * x ^ 2 by ring,
          sqrt_four_sq (by linarith)]
      have hden : (2 * x * 2 : ℝ) ≠ 0 := by
        intro hc
        exact hx' (by linarith [hc])
      refine Quat.ext ?_ ?_ ?_ ?_ <;>
        · dsimp only
          first
          | ring1
          | (rw [div_eq_iff hden]; ring1)
  · -- `m11` largest diagonal: sign decided by `y`
    have hy' : y ≠ 0 := by
      intro hy0
      nlinarith
    rcases lt_or_gt_of_ne hy' with hy | hy
    · right
      rw [show 1 + (1 - 2 * (x ^ 2 + z ^ 2)) - (1 - 2 * (y ^ 2 + z ^ 2)) -
            (1 - 2 * (x ^ 2 + y ^ 2)) = 4 * (-y) ^ 2 by ring,
          sqrt_four_sq (by linarith)]
      have hden : (2 * -y * 2 : ℝ) ≠ 0 := by
        intro hc
        exact hy' (by linarith [hc])
      refine Quat.ext ?_ ?_ ?_ ?_ <;>
        · dsimp only
          first
          | ring1
          | (rw [div_eq_iff hden]; ring1)
    · left
      rw [show 1 + (1 - 2 * (x ^ 2 + z ^ 2)) - (1 - 2 * (y ^ 2 + z ^ 2)) -
            (1 - 2 * (x ^ 2 + y ^ 2)) = 4 * y ^ 2 by ring,
          sqrt_four_sq (by linarith)]
      have hden : (2 * y * 2 : ℝ) ≠ 0 := by
        intro hc
        exact hy' (by linarith [hc])
      refine Quat.ext ?_ ?_ ?_ ?_ <;>
        · dsimp only
          first
          | ring1
          | (rw [div_eq_iff hden]; ring1)
  · -- `m22` largest diagonal: sign decided by `z`
    have hz' : z ≠ 0 := by
      intro hz0
      rcases not_and_or.mp h2 with h2a | h2b
      · nlinarith
      · nlinarith
    rcases lt_or_gt_of_ne hz' with hz | hz
    · right
      rw [show 1 + (1 - 2 * (x ^ 2 + y ^ 2)) - (1 - 2 * (y ^ 2 + z ^ 2)) -
            (1 - 2 * (x ^ 2 + z ^ 2)) = 4 * (-z) ^ 2 by ring,
          sqrt_four_sq (by linarith)]
      have hden : (2 * -z * 2 : ℝ) ≠ 0 := by
        intro hc
        exact hz' (by linarith [hc])
      refine Quat.ext ?_ ?_ ?_ ?_ <;>
        · dsimp only
          first
          | ring1
          | (rw [div_eq_iff hden]; ring1)
    · left
      rw [show 1 + (1 - 2 * (x ^ 2 + y ^ 2)) - (1 - 2 * (y ^ 2 + z ^ 2)) -
            (1 - 2 * (x ^ 2 + z ^ 2)) = 4 * z ^ 2 by ring,
          sqrt_four_sq (by linarith)]
      have hden : (2 * z * 2 : ℝ) ≠ 0 := by
        intro hc
        exact hz' (by linarith [hc])
      refine Quat.ext ?_ ?_ ?_ ?_ <;>
        · dsimp only
          first
          | ring1
          | (rw [div_eq_iff hden]; ring1)

/-- Structural induction principle for scene trees (children are a nested
list, so this is derived from strong induction on sizes). -/
theorem BTree.induction {P : BTree → Prop}
    (h : ∀ name st children, (∀ c ∈ children, P c) → P (BTree.node name st children)) :
    ∀ t, P t := by
  have key : ∀ k (t : BTree), sizeOf t ≤ k → P t := by
    intro k
    induction k with
    | zero =>
      intro t ht
      cases t with
      | node n st cs => simp at ht
    | succ k ih =>
      intro t ht
      cases t with
      | node n st cs =>
        apply h
        intro c hc
        apply ih
        have hlt := List.sizeOf_lt_of_mem hc
        simp only [BTree.node.sizeOf_spec] at ht
        omega
  intro t
  exact key (sizeOf t) t le_rfl

/-- Looking up after an update at the same name sees the updated state. -/
theorem findF_updateF_aux (n : String) (f : BObjState → BObjState) :
    ∀ l : List BTree,
      (∀ t ∈ l, findObjT (updateObjT t n f) n = (findObjT t n).map f) →
      findObjF (updateObjF l n f) n = (findObjF l n).map f := by
  intro l
  induction l with
  | nil => intro _; simp [updateObjF, findObjF]
  | cons t ts ih =>
    intro hmem
    simp only [updateObjF, findObjF]
    rw [hmem t (by simp)]
    cases findObjT t n with
    | some st => simp
    | none =>
      simp only [Option.map_none']
      exact ih (fun u hu => hmem u (by simp [hu]))

/-- Tree version of `findF_updateF_aux`. -/
theorem findT_updateT (n : String) (f : BObjState → BObjState) :
    ∀ t : BTree, findObjT (updateObjT t n f) n = (findObjT t n).map f := by
  apply BTree.induction
  intro nm st cs ih
  by_cases hn : nm = n
  · subst hn
    simp [updateObjT, findObjT]
  · simp only [updateObjT, findObjT, if_neg hn]
    exact findF_updateF_aux n f cs ih

/-- Forest version: looking up after an update at the same name sees the
updated state. -/
theorem findF_updateF (n : String) (f : BObjState → BObjState) (l : List BTree) :
    findObjF (updateObjF l n f) n = (findObjF l n).map f :=
  findF_updateF_aux n f l (fun t _ => findT_updateT n f t)

/-- Successful resolution means the name is found in the scene. -/
theorem get_obj_by_name_ok {s : Scene} {n : String} {st : BObjState}
    (h : get_obj_by_name s n = .ok st) : findObjF s n = some st := by
  unfold get_obj_by_name at h
  cases hf : findObjF s n with
  | none => rw [hf] at h; cases h
  | some st1 => rw [hf] at h; cases h; rfl

/-- C1: every successful call of `set_object_pose` resolves the object
handle and then performs exactly, in this order: suspend dynamics, zero the
linear velocity, zero the angular velocity, zero the force, zero the
torque, assign the new world position, assign the new world orientation
(the quaternion converted to a rotation matrix), and restore dynamics. -/
theorem c1_set_object_pose_sequence (s : Scene) (n : String)
    (position orientation : JVal)
    (h : (set_object_pose s n position orientation).1 = Except.ok ()) :
    (∃ st, get_obj_by_name s n = .ok st) ∧
    ∃ p q, parseVector position = some [p.x, p.y, p.z] ∧
      parseQuaternion orientation = some q ∧
      (set_object_pose s n position orientation).2.2 =
        [Ev.suspendDynamics n, Ev.setLinearVelocity n V3.zero,
         Ev.setAngularVelocity n V3.zero, Ev.applyForce n V3.zero,
         Ev.applyTorque n V3.zero, Ev.setWorldPosition n p,
         Ev.setWorldOrientation n (Quat.to_matrix q), Ev.restoreDynamics n] ∧
      ∃ st, findObjF s n = some st ∧
        findObjF (set_object_pose s n position orientation).2.1 n =
          some { st with linVel := V3.zero, angVel := V3.zero, force := V3.zero,
                         torque := V3.zero, worldPos := p,
                         worldOri := Quat.to_matrix q, suspended := false } := by
  cases hres : get_obj_by_name s n with
  | error e => simp [set_object_pose, hres] at h
  | ok st0 =>
    cases hp : parseVector position with
    | none => simp [set_object_pose, hres, hp] at h
    | some pos =>
      cases hq : parseQuaternion orientation with
      | none => simp [set_object_pose, hres, hp, hq] at h
      | some q =>
        have hfind : findObjF s n = some st0 := get_obj_by_name_ok hres
        rcases pos with _ | ⟨px, _ | ⟨py, _ | ⟨pz, _ | ⟨pw, tl⟩⟩⟩⟩
        · simp [set_object_pose, hres, hp, hq] at h
        · simp [set_object_pose, hres, hp, hq] at h
        · simp [set_object_pose, hres, hp, hq] at h
        · refine ⟨⟨st0, rfl⟩, ⟨px, py, pz⟩, q, rfl, rfl, ?_, st0, hfind, ?_⟩
          · simp [set_object_pose, hres, hp, hq]
          · simp only [set_object_pose, hres, hp, hq]
            simp only [findF_updateF, hfind, Option.map_some']
        · simp [set_object_pose, hres, hp, hq] at h

/-- C1 witness: a concrete successful call on the one-object scene. -/
theorem c1_witness :
    (set_object_pose demoScene "obj1" (encodeV3 ⟨1, 2, 3⟩)
        (encodeQuat ⟨1, 0, 0, 0⟩)).1 = Except.ok () ∧
    ((∃ st, get_obj_by_name demoScene "obj1" = .ok st) ∧
      ∃ p q, parseVector (encodeV3 ⟨1, 2, 3⟩) = some [p.x, p.y, p.z] ∧
        parseQuaternion (encodeQuat ⟨1, 0, 0, 0⟩) = some q ∧
        (set_object_pose demoScene "obj1" (encodeV3 ⟨1, 2, 3⟩)
            (encodeQuat ⟨1, 0, 0, 0⟩)).2.2 =
          [Ev.suspendDynamics "obj1", Ev.setLinearVelocity "obj1" V3.zero,
           Ev.setAngularVelocity "obj1" V3.zero, Ev.applyForce "obj1" V3.zero,
           Ev.applyTorque "obj1" V3.zero, Ev.setWorldPosition "obj1" p,
           Ev.setWorldOrientation "obj1" (Quat.to_matrix q),
           Ev.restoreDynamics "obj1"] ∧
        ∃ st, findObjF demoScene "obj1" = some st ∧
          findObjF (set_object_pose demoScene "obj1" (encodeV3 ⟨1, 2, 3⟩)
              (encodeQuat ⟨1, 0, 0, 0⟩)).2.1 "obj1" =
            some { st with linVel := V3.zero, angVel := V3.zero, force := V3.zero,
                           torque := V3.zero, worldPos := p,
                           worldOri := Quat.to_matrix q, suspended := false }) := by
  have h : (set_object_pose demoScene "obj1" (encodeV3 ⟨1, 2, 3⟩)
      (encodeQuat ⟨1, 0, 0, 0⟩)).1 = Except.ok () := by
    simp [set_object_pose, get_obj_by_name, demoScene, findObjF, findObjT,
      encodeV3, encodeQuat, parseVector, parseQuaternion]
  exact ⟨h, c1_set_object_pose_sequence demoScene "obj1" _ _ h⟩

/-- C7 (code bug): with a resolvable object name and the position argument
`[1, 2]` — valid JSON, accepted by the `mathutils.Vector` constructor —
`set_object_pose` suspends the dynamics of the object and zeroes its
linear velocity, angular velocity, force and torque (five physics calls),
then fails at the `worldPosition` assignment, and `restoreDynamics` is
never invoked: the call errors leaving the object with physics suspended,
velocities zeroed and its pose unchanged.  Simulation state is partially
mutated on a failure path, contradicting the claim (and the spec
requirement of resumption on every exit path). -/
theorem c7_partial_mutation_bug :
    (∃ st, get_obj_by_name demoScene "obj1" = Except.ok st) ∧
    (set_object_pose demoScene "obj1" (JVal.nums [1, 2])
        (encodeQuat ⟨1, 0, 0, 0⟩)).1 =
      Except.error (Err.typeErr "worldPosition requires a 3d vector") ∧
    (set_object_pose demoScene "obj1" (JVal.nums [1, 2])
        (encodeQuat ⟨1, 0, 0, 0⟩)).2.2 =
      [Ev.suspendDynamics "obj1", Ev.setLinearVelocity "obj1" V3.zero,
       Ev.setAngularVelocity "obj1" V3.zero, Ev.applyForce "obj1" V3.zero,
       Ev.applyTorque "obj1" V3.zero] ∧
    findObjF (set_object_pose demoScene "obj1" (JVal.nums [1, 2])
        (encodeQuat ⟨1, 0, 0, 0⟩)).2.1 "obj1" =
      some { demoState with suspended := true, linVel := V3.zero,
                            angVel := V3.zero, force := V3.zero,
                            torque := V3.zero } := by
  refine ⟨⟨demoState, ?_⟩, ?_, ?_, ?_⟩ <;>
    simp [set_object_pose, get_obj_by_name, demoScene, demoState, findObjF,
      findObjT, parseVector, parseQuaternion, encodeQuat, updateObjF,
      updateObjT]

/-- C8: every object service called with a name absent from the scene
raises the typed not-found fault and returns the scene unchanged, and
`activate`/`deactivate` on an unknown component name raise the typed fault
and leave the component dictionary — every flag included — unchanged. -/
theorem c8_unknown_name (s : Scene) (d : ComponentDict) (n : String)
    (p o pt : JVal) (v c b : Bool)
    (hobj : findObjF s n = none) (hcmp : d.lookup n = none) :
    get_object_pose s n = .error (notFoundErr n) ∧
    set_object_pose s n p o = (.error (notFoundErr n), s, []) ∧
    get_object_bbox s n = .error (notFoundErr n) ∧
    get_object_global_bbox s n = .error (notFoundErr n) ∧
    get_object_type s n = .error (notFoundErr n) ∧
    set_object_visibility s n v c = (.error (notFoundErr n), s) ∧
    set_object_dynamics s n b = (.error (notFoundErr n), s) ∧
    transform_to_obj_frame s n pt = .error (notFoundErr n) ∧
    activate d n =
      (.error (.typeErr ("Component " ++ n ++ " not found. Cant activate")), d) ∧
    deactivate d n =
      (.error (.typeErr ("Component " ++ n ++ " not found. Cant deactivate")), d) := by
  have hres : get_obj_by_name s n = .error (notFoundErr n) := by
    simp [get_obj_by_name, hobj]
  refine ⟨?_, ?_, ?_, ?_, ?_, ?_, ?_, ?_, ?_, ?_⟩ <;>
    simp [get_object_pose, set_object_pose, get_object_bbox,
      get_object_global_bbox, get_object_type, set_object_visibility,
      set_object_dynamics, transform_to_obj_frame, activate, deactivate,
      hres, hcmp]

/-- C8 witness: the concrete name `does-not-exist` against the concrete
scene and component dictionary. -/
theorem c8_witness :
    findObjF demoScene "does-not-exist" = none ∧
    demoComponents.lookup "does-not-exist" = none ∧
    (get_object_pose demoScene "does-not-exist" =
        .error (notFoundErr "does-not-exist") ∧
      set_object_pose demoScene "does-not-exist" (JVal.nums [1, 2, 3])
          (JVal.nums [1, 0, 0, 0]) =
        (.error (notFoundErr "does-not-exist"), demoScene, []) ∧
      get_object_bbox demoScene "does-not-exist" =
        .error (notFoundErr "does-not-exist") ∧
      get_object_global_bbox demoScene "does-not-exist" =
        .error (notFoundErr "does-not-exist") ∧
      get_object_type demoScene "does-not-exist" =
        .error (notFoundErr "does-not-exist") ∧
      set_object_visibility demoScene "does-not-exist" true true =
        (.error (notFoundErr "does-not-exist"), demoScene) ∧
      set_object_dynamics demoScene "does-not-exist" false =
        (.error (notFoundErr "does-not-exist"), demoScene) ∧
      transform_to_obj_frame demoScene "does-not-exist" (JVal.nums [0, 0, 0]) =
        .error (notFoundErr "does-not-exist") ∧
      activate demoComponents "does-not-exist" =
        (.error (.typeErr
          ("Component " ++ "does-not-exist" ++ " not found. Cant activate")),
          demoComponents) ∧
      deactivate demoComponents "does-not-exist" =
        (.error (.typeErr
          ("Component " ++ "does-not-exist" ++ " not found. Cant deactivate")),
          demoComponents)) := by
  have hobj : findObjF demoScene "does-not-exist" = none := by
    simp [demoScene, findObjF, findObjT]
  have hcmp : demoComponents.lookup "does-not-exist" = none := by
    simp [demoComponents, List.lookup]
  exact ⟨hobj, hcmp,
    c8_unknown_name demoScene demoComponents "does-not-exist" _ _ _ true true false hobj hcmp⟩

/-- C6: `transform_to_obj_frame` maps the given point, read in the local
axes of the object, OUT to world coordinates: it returns `R * p + T` for
the world orientation matrix `R` and world position `T` of the object (it
does not apply the inverse transform its name suggests). -/
theorem c6_transform_to_obj_frame (s : Scene) (n : String) (st : BObjState)
    (p : V3) (h : get_obj_by_name s n = .ok st) :
    transform_to_obj_frame s n (encodeV3 p) =
      .ok [(V3.add (st.worldOri.mulVec p) st.worldPos).x,
           (V3.add (st.worldOri.mulVec p) st.worldPos).y,
           (V3.add (st.worldOri.mulVec p) st.worldPos).z] := by
  simp [transform_to_obj_frame, h, encodeV3, parseVector]

/-- C6 witness: the point `(1, 1, 1)` in the frame of `box1` (world
position `(10, 0, 0)`, identity orientation) maps to `(11, 1, 1)`. -/
theorem c6_witness :
    get_obj_by_name boxScene "box1" = .ok boxState ∧
    transform_to_obj_frame boxScene "box1" (encodeV3 ⟨1, 1, 1⟩) =
      .ok [11, 1, 1] := by
  have h : get_obj_by_name boxScene "box1" = .ok boxState := by
    simp [get_obj_by_name, boxScene, findObjF, findObjT]
  refine ⟨h, ?_⟩
  rw [c6_transform_to_obj_frame boxScene "box1" boxState ⟨1, 1, 1⟩ h]
  simp [boxState, demoState, M3.identity, M3.mulVec, V3.add]
  norm_num

/-- C3: `get_object_global_bbox` maps each corner of the static local
bounding box (as returned by `get_object_bbox`) to `R * corner + T`, where
`R` is the world orientation matrix and `T` the world position of the
object at call time. -/
theorem c3_global_bbox (s : Scene) (n : String) (st : BObjState)
    (h : get_obj_by_name s n = .ok st) :
    get_object_global_bbox s n =
      .ok (st.localBBox.map (fun corner =>
        [(V3.add (st.worldOri.mulVec corner) st.worldPos).x,
         (V3.add (st.worldOri.mulVec corner) st.worldPos).y,
         (V3.add (st.worldOri.mulVec corner) st.worldPos).z])) ∧
    get_object_bbox s n =
      .ok (st.localBBox.map (fun corner => [corner.x, corner.y, corner.z])) := by
  constructor <;> simp [get_object_global_bbox, get_object_bbox, h]

/-- C3 witness: `box1` has `(1, 1, 1)` among its local corners and world
pose `(10, 0, 0)` with identity orientation; its global bounding box
contains the corner `(11, 1, 1)`. -/
theorem c3_witness :
    get_obj_by_name boxScene "box1" = .ok boxState ∧
    get_object_global_bbox boxScene "box1" =
      .ok [[10, 0, 0], [10, 0, 1], [10, 1, 1], [10, 1, 0],
           [11, 0, 0], [11, 0, 1], [11, 1, 1], [11, 1, 0]] := by
  have h : get_obj_by_name boxScene "box1" = .ok boxState := by
    simp [get_obj_by_name, boxScene, findObjF, findObjT]
  refine ⟨h, ?_⟩
  rw [(c3_global_bbox boxScene "box1" boxState h).1]
  simp [boxState, demoState, M3.identity, M3.mulVec, V3.add]
  norm_num

/-- Unfolding lemma for the root name on a constructor. -/
theorem rootName_node (n : String) (st : BObjState) (cs : List BTree) :
    (BTree.node n st cs).rootName = n := rfl

/-- The key of a snapshot entry is the name of its object. -/
theorem gsco_fst (t : BTree) : (get_structured_children_of t).1 = t.rootName := by
  cases t with
  | node nm st cs => simp [get_structured_children_of, rootName_node]

/-- C9: the top-level keys of `get_scene_objects` are exactly the names of
the parentless objects that are not in the fixed infrastructure exclusion
set: excluded names never appear as top-level keys, every other parentless
object does. -/
theorem c9_top_level_exclusion (scene : Scene) :
    (get_scene_objects scene).map Prod.fst =
      (scene.map BTree.rootName).filter (fun nm => !(remove_items.contains nm)) := by
  induction scene with
  | nil => rfl
  | cons t ts ih =>
    cases t with
    | node nm st cs =>
      simp only [get_scene_objects, top_levelers] at ih ⊢
      by_cases hmem : nm ∈ remove_items
      · simp [List.filter_cons, rootName_node, hmem, gsco_fst] at ih ⊢
        exact ih
      · simp [List.filter_cons, rootName_node, hmem, gsco_fst] at ih ⊢
        exact ih

/-- The children dictionaries agree with the spec-side children mapping. -/
theorem childStructures_eq_spec (l : List BTree)
    (ih : ∀ t ∈ l, get_structured_children_of t = specSceneNode t) :
    childStructures l = specSceneChildren l := by
  induction l with
  | nil => rfl
  | cons c cs ihl =>
    simp only [childStructures, specSceneChildren]
    rw [ih c (by simp), ihl (fun t ht => ih t (by simp [ht]))]

/-- Each snapshot entry is exactly the spec-side SceneNode of its object. -/
theorem gsco_eq_spec : ∀ t, get_structured_children_of t = specSceneNode t := by
  apply BTree.induction
  intro nm st cs ih
  simp only [get_structured_children_of, specSceneNode]
  rw [childStructures_eq_spec cs ih]

/-- C4: `get_scene_objects` returns, for every surviving top-level object,
a mapping keyed by object name whose value is the 3-element structure
`(children_map, position, orientation)` where the children map has the same
recursive shape and every position/orientation entry is the WORLD-space
pose of the node itself, not a pose relative to its parent (the spec-side
`specSceneNode` is built exactly from that description). -/
theorem c4_snapshot_structure (scene : Scene) :
    get_scene_objects scene = (top_levelers scene).map specSceneNode := by
  unfold get_scene_objects
  induction top_levelers scene with
  | nil => rfl
  | cons t ts ih => simp only [List.map_cons, gsco_eq_spec t, ih]

/-- The orientation entries of a children dictionary are the scalar-last
world quaternions of the corresponding subtrees. -/
theorem snapOrisL_child (l : List BTree)
    (ih : ∀ t ∈ l, snapOris (get_structured_children_of t) =
      (treeWorldQuats t).map (fun q => (q.x, q.y, q.z, q.w))) :
    snapOrisL (childStructures l) =
      (forestWorldQuats l).map (fun q => (q.x, q.y, q.z, q.w)) := by
  induction l with
  | nil => simp [childStructures, snapOrisL, forestWorldQuats]
  | cons c cs ihl =>
    simp only [childStructures, forestWorldQuats, snapOrisL, List.map_append]
    rw [ih c (by simp), ihl (fun t ht => ih t (by simp [ht]))]

/-- The orientation entries of one snapshot entry are the scalar-last world
quaternions of its subtree. -/
theorem snapOris_gsco : ∀ t, snapOris (get_structured_children_of t) =
    (treeWorldQuats t).map (fun q => (q.x, q.y, q.z, q.w)) := by
  apply BTree.induction
  intro nm st cs ih
  simp only [get_structured_children_of, treeWorldQuats, snapOris, List.map_cons]
  rw [snapOrisL_child cs ih]

/-- C5 (amended): every orientation entry in the structure returned by
`get_scene_objects` is the world orientation quaternion of its node in
scalar-LAST order `(x, y, z, w)` — not the scalar-first `[w, x, y, z]`
convention. -/
theorem c5_snapshot_orientation_order (scene : Scene) :
    sceneSnapOris (get_scene_objects scene) =
      (forestWorldQuats (top_levelers scene)).map
        (fun q => (q.x, q.y, q.z, q.w)) := by
  unfold sceneSnapOris get_scene_objects
  generalize top_levelers scene = l
  induction l with
  | nil => simp [snapOrisL, forestWorldQuats]
  | cons t ts ih =>
    simp only [List.map_cons, snapOrisL, forestWorldQuats, List.map_append]
    rw [snapOris_gsco t, ih]

/-- Converting the identity matrix gives the identity quaternion. -/
theorem to_quaternion_identity : M3.to_quaternion M3.identity = ⟨1, 0, 0, 0⟩ := by
  simp only [M3.to_quaternion, M3.identity]
  split_ifs with h1 h2 h3
  · rw [show (1 : ℝ) + 1 + 1 + 1 = 4 * 1 ^ 2 by norm_num, sqrt_four_sq (by norm_num)]
    refine Quat.ext ?_ ?_ ?_ ?_ <;> norm_num
  · exact absurd (by norm_num : (0 : ℝ) < 1 + 1 + 1) h1
  · exact absurd (by norm_num : (0 : ℝ) < 1 + 1 + 1) h1
  · exact absurd (by norm_num : (0 : ℝ) < 1 + 1 + 1) h1

/-- C5 counterexample: in the concrete one-object scene with identity world
orientation, the snapshot orientation entry is `(0, 0, 0, 1)` — scalar
last — whereas the claimed scalar-first reading demands `(1, 0, 0, 0)`. -/
theorem c5_counterexample :
    sceneSnapOris (get_scene_objects demoScene) ≠
      (forestWorldQuats (top_levelers demoScene)).map
        (fun q => (q.w, q.x, q.y, q.z)) := by
  intro hcl
  have hL : sceneSnapOris (get_scene_objects demoScene) =
      [((0 : ℝ), (0 : ℝ), (0 : ℝ), (1 : ℝ))] := by
    simp [sceneSnapOris, get_scene_objects, top_levelers, demoScene, demoState,
      remove_items, get_structured_children_of, childStructures, snapOris,
      snapOrisL, BTree.rootName, to_quaternion_identity]
  have hR : (forestWorldQuats (top_levelers demoScene)).map
      (fun q => (q.w, q.x, q.y, q.z)) = [((1 : ℝ), (0 : ℝ), (0 : ℝ), (0 : ℝ))] := by
    simp [forestWorldQuats, treeWorldQuats, top_levelers, demoScene, demoState,
      remove_items, BTree.rootName, to_quaternion_identity]
  rw [hL, hR] at hcl
  norm_num at hcl

/-- C2: `set_object_pose` followed by `get_object_pose` on the same object
present in the scene returns the written position exactly and the written
unit quaternion up to sign (`q` and `-q` identified), in scalar-first
`[w, x, y, z]` order. -/
theorem c2_pose_roundtrip (s : Scene) (n : String) (p : V3) (q : Quat)
    (hmem : (findObjF s n).isSome = true)
    (hunit : q.w ^ 2 + q.x ^ 2 + q.y ^ 2 + q.z ^ 2 = 1) :
    get_object_pose (set_object_pose s n (encodeV3 p) (encodeQuat q)).2.1 n =
      .ok [[p.x, p.y, p.z], [q.w, q.x, q.y, q.z]] ∨
    get_object_pose (set_object_pose s n (encodeV3 p) (encodeQuat q)).2.1 n =
      .ok [[p.x, p.y, p.z], [-q.w, -q.x, -q.y, -q.z]] := by
  obtain ⟨st0, hfind⟩ := Option.isSome_iff_exists.mp hmem
  have hres : get_obj_by_name s n = .ok st0 := by
    simp [get_obj_by_name, hfind]
  have hp : parseVector (encodeV3 p) = some [p.x, p.y, p.z] := rfl
  have hq : parseQuaternion (encodeQuat q) = some q := rfl
  have hstate : findObjF (set_object_pose s n (encodeV3 p) (encodeQuat q)).2.1 n =
      some { st0 with linVel := V3.zero, angVel := V3.zero, force := V3.zero,
                      torque := V3.zero, worldPos := p, worldOri := Quat.to_matrix q,
                      suspended := false } := by
    simp only [set_object_pose, hres, hp, hq]
    simp only [findF_updateF, hfind, Option.map_some']
  have hget : get_object_pose (set_object_pose s n (encodeV3 p) (encodeQuat q)).2.1 n =
      .ok [[p.x, p.y, p.z],
           [(M3.to_quaternion (Quat.to_matrix q)).w,
            (M3.to_quaternion (Quat.to_matrix q)).x,
            (M3.to_quaternion (Quat.to_matrix q)).y,
            (M3.to_quaternion (Quat.to_matrix q)).z]] := by
    simp [get_object_pose, get_obj_by_name, hstate]
  rcases to_quaternion_to_matrix q hunit with hrt | hrt
  · left
    rw [hget, hrt]
  · right
    rw [hget, hrt]
    simp [Quat.neg]

/-- C2 witness: a concrete round trip through the one-object scene with
the unit quaternion `(3/5, 4/5, 0, 0)` and position `(1, 2, 3)`. -/
theorem c2_witness :
    (findObjF demoScene "obj1").isSome = true ∧
    ((3 / 5 : ℝ) ^ 2 + (4 / 5 : ℝ) ^ 2 + (0 : ℝ) ^ 2 + (0 : ℝ) ^ 2 = 1) ∧
    (get_object_pose (set_object_pose demoScene "obj1" (encodeV3 ⟨1, 2, 3⟩)
          (encodeQuat ⟨3 / 5, 4 / 5, 0, 0⟩)).2.1 "obj1" =
        .ok [[1, 2, 3], [3 / 5, 4 / 5, 0, 0]] ∨
      get_object_pose (set_object_pose demoScene "obj1" (encodeV3 ⟨1, 2, 3⟩)
          (encodeQuat ⟨3 / 5, 4 / 5, 0, 0⟩)).2.1 "obj1" =
        .ok [[1, 2, 3], [-(3 / 5), -(4 / 5), -0, -0]]) := by
  have hmem : (findObjF demoScene "obj1").isSome = true := by
    simp [demoScene, findObjF, findObjT]
  have hunit : ((3 / 5 : ℝ) ^ 2 + (4 / 5 : ℝ) ^ 2 + (0 : ℝ) ^ 2 + (0 : ℝ) ^ 2 = 1) := by
    norm_num
  exact ⟨hmem, hunit,
    c2_pose_roundtrip demoScene "obj1" ⟨1, 2, 3⟩ ⟨3 / 5, 4 / 5, 0, 0⟩ hmem hunit⟩

/-- Unfolding lemma for `List.lookup` on a cons cell. -/
theorem lookup_cons {α : Type} (k1 : String) (v1 : α) (es : List (String × α))
    (c : String) :
    ((k1, v1) :: es).lookup c = if c == k1 then some v1 else es.lookup c := by
  cases h : c == k1 with
  | true =>
    rw [if_pos rfl]
    rw [List.lookup, h]
  | false =>
    rw [if_neg (by simp)]
    rw [List.lookup, h]

/-- A key that is not among the keys of an association list has no
binding. -/
theorem lookup_none_of_not_mem {α : Type} (d : List (String × α)) (k : String)
    (h : k ∉ d.map Prod.fst) : d.lookup k = none := by
  induction d with
  | nil => rfl
  | cons e es ih =>
    obtain ⟨k1, v1⟩ := e
    simp only [List.map_cons, List.mem_cons, not_or] at h
    rw [lookup_cons, if_neg (by simpa using h.1), ih h.2]

/-- `any` over the keys agrees with membership in the key list. -/
theorem any_key_iff_mem {α : Type} (d : List (String × α)) (c : String) :
    d.any (fun e => e.1 == c) = true ↔ c ∈ d.map Prod.fst := by
  induction d with
  | nil => simp
  | cons e es ih =>
    obtain ⟨k1, v1⟩ := e
    simp only [List.any_cons, Bool.or_eq_true, beq_iff_eq, List.map_cons,
      List.mem_cons, ih]
    constructor
    · rintro (h | h)
      · exact Or.inl h.symm
      · exact Or.inr h
    · rintro (h | h)
      · exact Or.inl h.symm
      · exact Or.inr h

/-- A bound key has a binding. -/
theorem lookup_isSome_of_any {α : Type} (d : List (String × α)) (c : String)
    (h : d.any (fun e => e.1 == c) = true) : (d.lookup c).isSome = true := by
  induction d with
  | nil => cases h
  | cons e es ih =>
    obtain ⟨k1, v1⟩ := e
    rw [lookup_cons]
    by_cases h1 : (c == k1) = true
    · rw [if_pos h1]
      rfl
    · rw [if_neg h1]
      apply ih
      simp only [List.any_cons, Bool.or_eq_true] at h
      rcases h with h | h
      · exfalso
        apply h1
        simp only [beq_iff_eq] at h ⊢
        exact h.symm
      · exact h

/-- An unbound key has no binding. -/
theorem lookup_none_of_not_any {α : Type} (d : List (String × α)) (c : String)
    (h : d.any (fun e => e.1 == c) = false) : d.lookup c = none := by
  apply lookup_none_of_not_mem
  intro hmem
  rw [(any_key_iff_mem d c).mpr hmem] at h
  cases h

/-- Looking up the written key after the in-place write of `setKey`. -/
theorem lookup_map_replace {α : Type} (d : List (String × α)) (k : String) (v : α) :
    (d.map (fun e => if e.1 = k then (k, v) else e)).lookup k =
      if d.any (fun e => e.1 == k) then some v else none := by
  induction d with
  | nil => rfl
  | cons e es ih =>
    obtain ⟨k1, v1⟩ := e
    simp only [List.map_cons, List.any_cons]
    by_cases h1 : k1 = k
    · subst h1
      rw [if_pos rfl, lookup_cons, if_pos (by simp)]
      simp
    · rw [if_neg h1, lookup_cons,
        if_neg (by simpa using fun hc : k = k1 => h1 hc.symm), ih]
      have hf : (k1 == k) = false := by simpa using h1
      simp only [hf, Bool.false_or]

/-- Appending a fresh binding and then looking it up. -/
theorem lookup_append_single {α : Type} (d : List (String × α)) (k : String) (v : α)
    (h : d.any (fun e => e.1 == k) = false) : (d ++ [(k, v)]).lookup k = some v := by
  induction d with
  | nil =>
    rw [List.nil_append, lookup_cons, if_pos (by simp)]
  | cons e es ih =>
    obtain ⟨k1, v1⟩ := e
    simp only [List.any_cons, Bool.or_eq_false_iff] at h
    have hk : ¬((k == k1) = true) := by
      simp only [beq_iff_eq]
      intro hc
      subst hc
      simpa using h.1
    rw [List.cons_append, lookup_cons, if_neg hk, ih h.2]

/-- `setKey` binds the written key to the written value. -/
theorem lookup_setKey_self {α : Type} (d : List (String × α)) (k : String) (v : α) :
    (setKey d k v).lookup k = some v := by
  unfold setKey
  by_cases h : d.any (fun e => e.1 == k)
  · rw [if_pos h, lookup_map_replace, if_pos h]
  · rw [if_neg h, lookup_append_single d k v (by rwa [Bool.not_eq_true] at h)]

/-- `setKey` leaves every other key unchanged. -/
theorem lookup_setKey_other {α : Type} (d : List (String × α)) (k c : String) (v : α)
    (hne : c ≠ k) : (setKey d k v).lookup c = d.lookup c := by
  have hck : ¬((c == k) = true) := by simpa using hne
  unfold setKey
  by_cases h : d.any (fun e => e.1 == k)
  · rw [if_pos h]
    clear h
    induction d with
    | nil => rfl
    | cons e es ih =>
      obtain ⟨k1, v1⟩ := e
      simp only [List.map_cons]
      by_cases h1 : k1 = k
      · subst h1
        rw [if_pos rfl, lookup_cons, lookup_cons, if_neg hck, if_neg hck, ih]
      · rw [if_neg h1, lookup_cons, lookup_cons]
        by_cases hcb : (c == k1) = true
        · rw [if_pos hcb, if_pos hcb]
        · rw [if_neg hcb, if_neg hcb, ih]
  · rw [if_neg h]
    clear h
    induction d with
    | nil =>
      rw [List.nil_append, lookup_cons, if_neg hck]
    | cons e es ih =>
      obtain ⟨k1, v1⟩ := e
      rw [List.cons_append, lookup_cons, lookup_cons]
      by_cases hcb : (c == k1) = true
      · rw [if_pos hcb, if_pos hcb]
      · rw [if_neg hcb, if_neg hcb, ih]

/-- `dict.update`: keys of the update win, all other keys keep their old
binding (the update dictionary has unique keys, as a Python dict does). -/
theorem lookup_dictUpdate {α : Type} (d e : List (String × α)) (c : String)
    (hnd : (e.map Prod.fst).Nodup) :
    (dictUpdate d e).lookup c =
      match e.lookup c with
      | some v => some v
      | none => d.lookup c := by
  induction e generalizing d with
  | nil => rfl
  | cons q es ih =>
    obtain ⟨k, v⟩ := q
    simp only [List.map_cons, List.nodup_cons] at hnd
    have step : dictUpdate d ((k, v) :: es) = dictUpdate (setKey d k v) es := rfl
    rw [step, ih (setKey d k v) hnd.2]
    by_cases hc : c = k
    · subst hc
      have hes : es.lookup c = none := lookup_none_of_not_mem es c hnd.1
      rw [hes, lookup_cons, if_pos (by simp)]
      exact lookup_setKey_self d c v
    · rw [lookup_cons, if_neg (by simpa using hc),
        lookup_setKey_other d k c v hc]

/-- The `services` dictionary of `details()` holds, for every component,
the operation list contributed by the last request manager that exposes
it (later managers overwrite earlier ones). -/
theorem lookup_buildServices_aux (c : String) :
    ∀ (rms : RequestManagers) (acc : List (String × List String)),
      (∀ p ∈ rms, (p.2.map Prod.fst).Nodup) →
      (rms.foldl (fun a p => dictUpdate a p.2) acc).lookup c =
        match lastServing c rms with
        | some m => m.2.lookup c
        | none => acc.lookup c := by
  intro rms
  induction rms with
  | nil => intro acc _; rfl
  | cons p rest ih =>
    intro acc hnd
    rw [List.foldl_cons, ih (dictUpdate acc p.2) (fun q hq => hnd q (by simp [hq]))]
    cases hls : lastServing c rest with
    | some m =>
      simp only [lastServing]
      rw [hls]
    | none =>
      simp only [lastServing]
      rw [hls]
      rw [lookup_dictUpdate acc p.2 c (hnd p (by simp))]
      by_cases hexp : (p.2.any fun q => q.1 == c) = true
      · rw [if_pos hexp]
        dsimp only
        obtain ⟨v, hv⟩ := Option.isSome_iff_exists.mp (lookup_isSome_of_any p.2 c hexp)
        rw [hv]
      · rw [if_neg hexp]
        dsimp only
        rw [lookup_none_of_not_any p.2 c (by rwa [Bool.not_eq_true] at hexp)]

/-- When at least one attached manager exposes the component,
`lastServing` finds one. -/
theorem lastServing_isSome_of_exposing (c : String) (rms : RequestManagers)
    (h : exposingFor rms c ≠ []) : ∃ m, lastServing c rms = some m := by
  induction rms with
  | nil => simp [exposingFor] at h
  | cons p rest ih =>
    by_cases hexp : (p.2.any fun q => q.1 == c) = true
    · cases hls : lastServing c rest with
      | some m =>
        refine ⟨m, ?_⟩
        simp only [lastServing]
        rw [hls]
      | none =>
        refine ⟨p, ?_⟩
        simp only [lastServing]
        rw [hls, if_pos hexp]
    · have hrest : exposingFor rest c ≠ [] := by
        unfold exposingFor at h ⊢
        rwa [List.filter_cons, if_neg hexp] at h
      obtain ⟨m, hm⟩ := ih hrest
      refine ⟨m, ?_⟩
      simp only [lastServing]
      rw [hm]

/-- The manager found by `lastServing` does expose the component. -/
theorem lastServing_exposes (c : String) :
    ∀ (rms : RequestManagers) m, lastServing c rms = some m →
      (m.2.any fun q => q.1 == c) = true := by
  intro rms
  induction rms with
  | nil => intro m h; cases h
  | cons p rest ih =>
    intro m h
    simp only [lastServing] at h
    cases hls : lastServing c rest with
    | some m1 =>
      rw [hls] at h
      dsimp only at h
      injection h with hh
      subst hh
      exact ih m1 hls
    | none =>
      rw [hls] at h
      dsimp only at h
      by_cases hexp : (p.2.any fun q => q.1 == c) = true
      · rw [if_pos hexp] at h
        injection h with hh
        subst hh
        exact hexp
      · rw [if_neg hexp] at h
        cases h

/-- `appendAt` appends to the binding of the written key (creating it when
missing). -/
theorem lookup_appendAt_self (d : List (String × List String)) (k v : String) :
    (appendAt d k v).lookup k = some (((d.lookup k).getD []) ++ [v]) := by
  unfold appendAt
  by_cases h : d.any (fun e => e.1 == k)
  · rw [if_pos h]
    induction d with
    | nil => simp at h
    | cons e es ih =>
      obtain ⟨k1, v1⟩ := e
      simp only [List.map_cons]
      by_cases h1 : k1 = k
      · subst h1
        rw [if_pos rfl, lookup_cons, lookup_cons, if_pos (by simp), if_pos (by simp)]
        rfl
      · have hk : ¬((k == k1) = true) := by
          simp only [beq_iff_eq]
          exact fun hc => h1 hc.symm
        have hes : es.any (fun e => e.1 == k) = true := by
          simp only [List.any_cons, Bool.or_eq_true] at h
          rcases h with h | h
          · exact absurd (by simpa using h) h1
          · exact h
        rw [if_neg h1, lookup_cons, lookup_cons, if_neg hk, if_neg hk]
        exact ih hes
  · rw [if_neg h]
    rw [lookup_append_single d k [v] (by rwa [Bool.not_eq_true] at h)]
    rw [lookup_none_of_not_any d k (by rwa [Bool.not_eq_true] at h)]
    rfl

/-- `appendAt` leaves every other key unchanged. -/
theorem lookup_appendAt_other (d : List (String × List String)) (k c v : String)
    (hne : c ≠ k) : (appendAt d k v).lookup c = d.lookup c := by
  have hck : ¬((c == k) = true) := by simpa using hne
  unfold appendAt
  by_cases h : d.any (fun e => e.1 == k)
  · rw [if_pos h]
    clear h
    induction d with
    | nil => rfl
    | cons e es ih =>
      obtain ⟨k1, v1⟩ := e
      simp only [List.map_cons]
      by_cases h1 : k1 = k
      · subst h1
        rw [if_pos rfl, lookup_cons, lookup_cons, if_neg hck, if_neg hck, ih]
      · rw [if_neg h1, lookup_cons, lookup_cons]
        by_cases hcb : (c == k1) = true
        · rw [if_pos hcb, if_pos hcb]
        · rw [if_neg hcb, if_neg hcb, ih]
  · rw [if_neg h]
    clear h
    induction d with
    | nil =>
      rw [List.nil_append, lookup_cons, if_neg hck]
    | cons e es ih =>
      obtain ⟨k1, v1⟩ := e
      rw [List.cons_append, lookup_cons, lookup_cons]
      by_cases hcb : (c == k1) = true
      · rw [if_pos hcb, if_pos hcb]
      · rw [if_neg hcb, if_neg hcb, ih]

/-- One manager appends its name to the interface list of exactly the
components its `services()` listing contains. -/
theorem lookup_innerFold (mname c : String) :
    ∀ (sm : List (String × List String)) (acc : List (String × List String)),
      (sm.map Prod.fst).Nodup →
      ((sm.foldl (fun a q => appendAt a q.1 mname) acc).lookup c =
        if sm.any (fun q => q.1 == c) then
          some (((acc.lookup c).getD []) ++ [mname])
        else acc.lookup c) := by
  intro sm
  induction sm with
  | nil => intro acc _; simp
  | cons q rest ih =>
    intro acc hnd
    obtain ⟨k, ops⟩ := q
    simp only [List.map_cons, List.nodup_cons] at hnd
    rw [List.foldl_cons, ih (appendAt acc k mname) hnd.2]
    by_cases hc : c = k
    · subst hc
      have hrest : rest.any (fun q => q.1 == c) = false := by
        rw [Bool.eq_false_iff]
        intro hany
        exact hnd.1 ((any_key_iff_mem rest c).mp hany)
      rw [hrest]
      simp only [Bool.false_eq_true, if_false]
      rw [lookup_appendAt_self]
      simp [List.any_cons]
    · have hkc : (k == c) = false := by
        simp only [beq_eq_false_iff_ne, ne_eq]
        exact fun hk => hc hk.symm
      rw [lookup_appendAt_other acc k c mname hc]
      simp only [List.any_cons, hkc, Bool.false_or]

/-- The `services_iface` dictionary of `details()` lists, for every
component, the names of ALL managers exposing it, in enumeration order. -/
theorem lookup_buildIfaces_aux (c : String) :
    ∀ (rms : RequestManagers) (acc : List (String × List String)),
      (∀ p ∈ rms, (p.2.map Prod.fst).Nodup) →
      ((rms.foldl (fun a p => p.2.foldl (fun a2 q => appendAt a2 q.1 p.1) a) acc).lookup c =
        if exposingFor rms c = [] then acc.lookup c
        else some (((acc.lookup c).getD []) ++ (exposingFor rms c).map Prod.fst)) := by
  intro rms
  induction rms with
  | nil => intro acc _; simp [exposingFor]
  | cons p rest ih =>
    intro acc hnd
    rw [List.foldl_cons, ih _ (fun q hq => hnd q (by simp [hq]))]
    rw [lookup_innerFold p.1 c p.2 acc (hnd p (by simp))]
    simp only [exposingFor, List.filter_cons]
    by_cases hexp : (p.2.any fun q => q.1 == c) = true
    · simp only [if_pos hexp]
      rw [if_neg (List.cons_ne_nil p (List.filter (fun p => p.2.any fun q => q.1 == c) rest))]
      by_cases hrest : List.filter (fun p => p.2.any fun q => q.1 == c) rest = []
      · rw [if_pos hrest, hrest]
        simp
      · rw [if_neg hrest]
        simp [List.append_assoc]
    · simp only [if_neg hexp]

/-- The per-component report copies the `services` and
`services_iface` bindings verbatim (independently of the datastream
branch). -/
theorem cmptdetails_fields (simu : Simu) (svs ifc : List (String × List String))
    (c : Component) (ops : List String) (h : svs.lookup c.name = some ops) :
    (cmptdetails simu svs ifc c).services = some ops ∧
    (cmptdetails simu svs ifc c).service_interfaces = ifc.lookup c.name := by
  unfold cmptdetails
  rw [h]
  cases simu.datastreams.lookup c.name <;> simp

/-- The per-robot report copies the `services` and `services_iface`
bindings verbatim. -/
theorem robotdetails_fields (simu : Simu) (svs ifc : List (String × List String))
    (r : Robot) (ops : List String) (h : svs.lookup r.name = some ops) :
    (robotdetails simu svs ifc r).services = some ops ∧
    (robotdetails simu svs ifc r).services_interfaces = ifc.lookup r.name := by
  unfold robotdetails
  rw [h]
  simp

/-- C10: when two or more attached middlewares expose services for the
same component (or robot) name, the `details()` report lists every such
middleware name under `service_interfaces` (`services_interfaces` for a
robot), but the `services` entry holds only the operation list of the
middleware enumerated last, because each `services()` mapping overwrites
earlier entries of the same component. -/
theorem c10_details_last_wins (simu : Simu) (cm : Component) (r : Robot)
    (hnodup : ∀ p ∈ simu.request_managers, (p.2.map Prod.fst).Nodup)
    (hc : 2 ≤ (exposingFor simu.request_managers cm.name).length)
    (hr : 2 ≤ (exposingFor simu.request_managers r.name).length) :
    ∃ mc mr opsC opsR,
      lastServing cm.name simu.request_managers = some mc ∧
      mc.2.lookup cm.name = some opsC ∧
      lastServing r.name simu.request_managers = some mr ∧
      mr.2.lookup r.name = some opsR ∧
      (cmptdetails simu (buildServices simu.request_managers)
          (buildIfaces simu.request_managers) cm).services = some opsC ∧
      (cmptdetails simu (buildServices simu.request_managers)
          (buildIfaces simu.request_managers) cm).service_interfaces =
        some ((exposingFor simu.request_managers cm.name).map Prod.fst) ∧
      (robotdetails simu (buildServices simu.request_managers)
          (buildIfaces simu.request_managers) r).services = some opsR ∧
      (robotdetails simu (buildServices simu.request_managers)
          (buildIfaces simu.request_managers) r).services_interfaces =
        some ((exposingFor simu.request_managers r.name).map Prod.fst) := by
  have keyFact : ∀ nm : String, 2 ≤ (exposingFor simu.request_managers nm).length →
      ∃ m ops, lastServing nm simu.request_managers = some m ∧
        m.2.lookup nm = some ops ∧
        (buildServices simu.request_managers).lookup nm = some ops ∧
        (buildIfaces simu.request_managers).lookup nm =
          some ((exposingFor simu.request_managers nm).map Prod.fst) := by
    intro nm hlen
    have hne : exposingFor simu.request_managers nm ≠ [] := by
      intro hnil
      rw [hnil] at hlen
      simp at hlen
    obtain ⟨m, hls⟩ := lastServing_isSome_of_exposing nm simu.request_managers hne
    have hexp := lastServing_exposes nm simu.request_managers m hls
    have hops := lookup_isSome_of_any m.2 nm hexp
    cases hl : m.2.lookup nm with
    | none => rw [hl] at hops; cases hops
    | some ops =>
      refine ⟨m, ops, hls, hl, ?_, ?_⟩
      · unfold buildServices
        rw [lookup_buildServices_aux nm simu.request_managers [] hnodup, hls]
        dsimp only
        exact hl
      · unfold buildIfaces
        rw [lookup_buildIfaces_aux nm simu.request_managers [] hnodup, if_neg hne]
        simp [List.lookup]
  obtain ⟨mc, opsC, hlsC, hlC, hsvC, hifC⟩ := keyFact cm.name hc
  obtain ⟨mr, opsR, hlsR, hlR, hsvR, hifR⟩ := keyFact r.name hr
  obtain ⟨hcs, hci⟩ := cmptdetails_fields simu _ _ cm opsC hsvC
  obtain ⟨hrs, hri⟩ := robotdetails_fields simu _ _ r opsR hsvR
  exact ⟨mc, mr, opsC, opsR, hlsC, hlC, hlsR, hlR, hcs,
    by rw [hci, hifC], hrs, by rw [hri, hifR]⟩

/-- C10 witness: in the concrete two-middleware setup both `socket` and
`ros` expose services for component `motion` and robot `robby`; the report
lists both interface names while the `services` entries come from `ros`,
the middleware enumerated last. -/
theorem c10_witness :
    (∀ p ∈ demoSimu.request_managers, (p.2.map Prod.fst).Nodup) ∧
    2 ≤ (exposingFor demoSimu.request_managers demoMotion.name).length ∧
    2 ≤ (exposingFor demoSimu.request_managers demoRobot.name).length ∧
    (∃ mc mr opsC opsR,
      lastServing demoMotion.name demoSimu.request_managers = some mc ∧
      mc.2.lookup demoMotion.name = some opsC ∧
      lastServing demoRobot.name demoSimu.request_managers = some mr ∧
      mr.2.lookup demoRobot.name = some opsR ∧
      (cmptdetails demoSimu (buildServices demoSimu.request_managers)
          (buildIfaces demoSimu.request_managers) demoMotion).services = some opsC ∧
      (cmptdetails demoSimu (buildServices demoSimu.request_managers)
          (buildIfaces demoSimu.request_managers) demoMotion).service_interfaces =
        some ((exposingFor demoSimu.request_managers demoMotion.name).map Prod.fst) ∧
      (robotdetails demoSimu (buildServices demoSimu.request_managers)
          (buildIfaces demoSimu.request_managers) demoRobot).services = some opsR ∧
      (robotdetails demoSimu (buildServices demoSimu.request_managers)
          (buildIfaces demoSimu.request_managers) demoRobot).services_interfaces =
        some ((exposingFor demoSimu.request_managers demoRobot.name).map Prod.fst)) := by
  have h1 : ∀ p ∈ demoSimu.request_managers, (p.2.map Prod.fst).Nodup := by
    intro p hp
    simp only [demoSimu, demoManagers, List.mem_cons, List.not_mem_nil, or_false] at hp
    rcases hp with hp | hp <;> subst hp <;> simp
  have h2 : 2 ≤ (exposingFor demoSimu.request_managers demoMotion.name).length := by
    simp [exposingFor, demoSimu, demoManagers, demoMotion]
  have h3 : 2 ≤ (exposingFor demoSimu.request_managers demoRobot.name).length := by
    simp [exposingFor, demoSimu, demoManagers, demoRobot]
  exact ⟨h1, h2, h3, c10_details_last_wins demoSimu demoMotion demoRobot h1 h2 h3⟩

end

end Morse
